import Mathlib

/-!
Verification development for the quantitative core of the
equity-valuation engine (backend sources).

Decimal values are modelled as exact rationals (`ℚ`); Python `Decimal`
arithmetic on the inputs at hand is exact except for the fractional power
inside the CAGR formula, which is modelled as the exact real power
(`Real.rpow`) followed by round-half-even to two decimal places, the
idealisation the spec itself describes as the precision boundary.

Raw provider reports (Python dicts deserialised from JSON) are modelled
as association lists from field name to `Option String`, where the value
`none` models a JSON `null` stored under a present key, and an absent key
is simply absent from the list.
-/

/-- A raw per-period statement report: a Python dict mapping field names
to string values (`none` models a stored `null`). -/
abbrev Report : Type := List (String × Option String)

/-- `reportFind r k` distinguishes an absent key (`none`) from a present
key with stored value `v` (`some v`), like Python `k in r` plus `r[k]`. -/
def reportFind : Report → String → Option (Option String)
  | [], _ => none
  | (k, v) :: rest, key => if k = key then some v else reportFind rest key

/-- Python `r.get(k)`: `None` both when the key is absent and when the
stored value is `null`. -/
def reportGet (r : Report) (key : String) : Option String :=
  match reportFind r key with
  | none => none
  | some v => v

/-- Python `r.get(k, d)`: the default `d` when the key is absent, the
stored value (possibly `null`) when present. -/
def reportGetD (r : Report) (key dflt : String) : Option String :=
  match reportFind r key with
  | none => some dflt
  | some v => v

/-- Digit run value, most significant first (`digitsVal ['1','2'] = 12`). -/
def digitsVal (cs : List Char) : ℕ :=
  cs.foldl (fun a c => 10 * a + (c.toNat - 48)) 0

/-- The purely syntactic content of a finite Python decimal numeric
string: sign, integer-part value, fraction-part value, fraction length and
exponent.  The numeric value is `decValue`. -/
structure DecParse : Type where
  neg : Bool
  intPart : ℕ
  fracPart : ℕ
  fracLen : ℕ
  exp : ℤ
  deriving DecidableEq, Repr

/-- Mantissa of a Python decimal numeric string: `digits`, `digits.digits`,
`digits.` or `.digits` (at least one digit in total); returns the
integer-part value, fraction-part value and fraction length. -/
def mantissaParse (cs : List Char) : Option (ℕ × ℕ × ℕ) :=
  let ip := cs.takeWhile Char.isDigit
  let rest := cs.dropWhile Char.isDigit
  match rest with
  | [] => if ip.isEmpty then none else some (digitsVal ip, 0, 0)
  | '.' :: fp =>
      if fp.all Char.isDigit ∧ ¬(ip.isEmpty ∧ fp.isEmpty) then
        some (digitsVal ip, digitsVal fp, fp.length)
      else none
  | _ => none

/-- Exponent part after `e`/`E`: optional sign then a nonempty digit run. -/
def expParse (cs : List Char) : Option ℤ :=
  let sgn : ℤ := match cs with
    | '-' :: _ => -1
    | _ => 1
  let ds := match cs with
    | '+' :: r => r
    | '-' :: r => r
    | r => r
  if ds.isEmpty ∨ ¬ ds.all Char.isDigit then none
  else some (sgn * (digitsVal ds : ℤ))

/-- Syntactic parse of a finite Python decimal numeric string
(`[sign] mantissa [(e|E) exponent]`), or `none` when the string does not
parse (Python `Decimal(s)` raising).  Special values (`NaN`, `Infinity`)
and surrounding whitespace are outside the model: the upstream API emits
plain numbers or the `"None"` sentinel. -/
def pyDecimalParse (s : String) : Option DecParse :=
  let cs := s.data
  let neg : Bool := match cs with
    | '-' :: _ => true
    | _ => false
  let body := match cs with
    | '+' :: r => r
    | '-' :: r => r
    | r => r
  let mant := body.takeWhile (fun c => ¬(c = 'e' ∨ c = 'E'))
  let erest := body.dropWhile (fun c => ¬(c = 'e' ∨ c = 'E'))
  match erest with
  | [] => (mantissaParse mant).map (fun m => ⟨neg, m.1, m.2.1, m.2.2, 0⟩)
  | _ :: ecs =>
      match mantissaParse mant, expParse ecs with
      | some m, some e => some ⟨neg, m.1, m.2.1, m.2.2, e⟩
      | _, _ => none

/-- The rational value of a parsed decimal numeric string. -/
def decValue (p : DecParse) : ℚ :=
  (if p.neg then -1 else 1) *
    ((p.intPart : ℚ) + (p.fracPart : ℚ) / (10 : ℚ) ^ p.fracLen) * (10 : ℚ) ^ p.exp

/-- The value of a finite Python decimal numeric string, or `none` when
the string does not parse. -/
def pyDecimal (s : String) : Option ℚ :=
  (pyDecimalParse s).map decValue

/-- `parse_decimal` from `infrastructure/mappers.py`: `0` for `None`,
`"None"`, `""`, and any string `Decimal` rejects; the parsed value
otherwise. -/
def parse_decimal (value : Option String) : ℚ :=
  match value with
  | none => 0
  | some s =>
      if s = "None" ∨ s = "" then 0
      else
        match pyDecimal s with
        | some q => q
        | none => 0

/-- `FinancialYear` from `domain/entities.py`: one reconciled fiscal
period, all line items exact decimals. -/
structure FinancialYear : Type where
  fiscal_date_ending : String
  revenue : ℚ
  ebitda : ℚ
  gross_profit : ℚ
  operating_income : ℚ
  net_income : ℚ
  operating_cash_flow : ℚ
  capital_expenditures : ℚ
  shares_outstanding : ℚ
  short_term_debt : ℚ
  long_term_debt : ℚ
  total_debt : ℚ
  total_assets : ℚ
  total_liabilities : ℚ
  cash_and_equivalents : ℚ
  deriving DecidableEq, Repr

/-- The date→report lookup built by the dict comprehensions in
`map_to_financial_years` (`{report.get("fiscalDateEnding"): report ...}`);
keys are the (possibly missing) fiscal dates. -/
def buildMap (l : List Report) : List (Option String × Report) :=
  l.map (fun r => (reportGet r "fiscalDateEnding", r))

/-- Python dict lookup on the comprehension result: the LAST report with
the given key wins (later comprehension entries overwrite earlier ones). -/
def dictGet : List (Option String × Report) → Option String → Option Report
  | [], _ => none
  | (k, r) :: rest, key =>
      match dictGet rest key with
      | some r2 => some r2
      | none => if k = key then some r else none

/-- Python truthiness of a looked-up report: `None` and the empty dict
are falsy, so `toTruthy` collapses both to `none`. -/
def toTruthy : Option Report → Option Report
  | none => none
  | some r => if r.isEmpty then none else some r

/-- The `ValueError` message raised by `map_to_financial_years` when a
counterpart statement is missing for a date. -/
def missingMsg (d : String) (balanceOk cashOk : Bool) : String :=
  "Missing data on date: " ++ d ++ ". Balance: " ++
    (if balanceOk then "OK" else "MISSING") ++ ", CashFlow: " ++
    (if cashOk then "OK" else "MISSING")

/-- The `FinancialYear` built in the loop body of `map_to_financial_years`
for fiscal date `d` from the matching income, balance and cash reports. -/
def mkYear (d : String) (income balance cash : Report) : FinancialYear :=
  { fiscal_date_ending := d
    revenue := parse_decimal (reportGetD income "totalRevenue" "0")
    ebitda := parse_decimal (reportGetD income "ebitda" "0")
    gross_profit := parse_decimal (reportGetD income "grossProfit" "0")
    operating_income := parse_decimal (reportGetD income "operatingIncome" "0")
    net_income := parse_decimal (reportGetD income "netIncome" "0")
    operating_cash_flow := parse_decimal (reportGetD cash "operatingCashflow" "0")
    capital_expenditures := parse_decimal (reportGetD cash "capitalExpenditures" "0")
    shares_outstanding := parse_decimal (reportGetD balance "commonStockSharesOutstanding" "0")
    short_term_debt := parse_decimal (reportGet balance "shortTermDebt")
    long_term_debt := parse_decimal (reportGet balance "longTermDebt")
    total_debt := parse_decimal (reportGetD balance "shortTermDebt" "0") +
      parse_decimal (reportGetD balance "longTermDebt" "0")
    total_assets := parse_decimal (reportGetD balance "totalAssets" "0")
    total_liabilities := parse_decimal (reportGetD balance "totalLiabilities" "0")
    cash_and_equivalents := parse_decimal (reportGetD balance "cashAndCashEquivalentsAtCarryingValue" "0") }

/-- The iteration of `map_to_financial_years` over the income list, with
the balance and cash lookups already built.  A falsy fiscal date
(`None` or `""`) skips the report; a missing (or falsy) counterpart
raises, modelled as `Except.error` with the exact message. -/
def reconcileGo (bm cm : List (Option String × Report)) :
    List Report → Except String (List FinancialYear)
  | [] => .ok []
  | ir :: rest =>
      match reportGet ir "fiscalDateEnding" with
      | none => reconcileGo bm cm rest
      | some d =>
          if d = "" then reconcileGo bm cm rest
          else
            match toTruthy (dictGet bm (some d)), toTruthy (dictGet cm (some d)) with
            | some b, some c =>
                match reconcileGo bm cm rest with
                | .ok ys => .ok (mkYear d ir b c :: ys)
                | .error e => .error e
            | bo, co => .error (missingMsg d bo.isSome co.isSome)

/-- `map_to_financial_years` from `infrastructure/mappers.py`. -/
def map_to_financial_years (income_list balance_list cash_list : List Report) :
    Except String (List FinancialYear) :=
  reconcileGo (buildMap balance_list) (buildMap cash_list) income_list

/-- The non-falsy fiscal dates of the income list, in order: exactly the
dates the loop does not skip. -/
def validDates (l : List Report) : List String :=
  l.filterMap (fun r =>
    match reportGet r "fiscalDateEnding" with
    | none => none
    | some d => if d = "" then none else some d)

/-- Whether a statement list, after the date→report lookup is built,
yields a truthy report for date `d` (Python `bool(map.get(d))`). -/
def statementFound (l : List Report) (d : String) : Bool :=
  (toTruthy (dictGet (buildMap l) (some d))).isSome

/-- Both counterparts present (and truthy) for date `d`. -/
def dateOk (bm cm : List (Option String × Report)) (d : String) : Bool :=
  (toTruthy (dictGet bm (some d))).isSome && (toTruthy (dictGet cm (some d))).isSome

/-- Evaluation helper: a string that parses yields its parsed value. -/
theorem parse_decimal_of_parse {s : String} {p : DecParse}
    (h1 : ¬(s = "None" ∨ s = "")) (h3 : pyDecimalParse s = some p) :
    parse_decimal (some s) = decValue p := by
  simp [parse_decimal, pyDecimal, h1, h3]

/-- Evaluation helper: a string that fails to parse yields `0`. -/
theorem parse_decimal_of_fail {s : String} (h3 : pyDecimalParse s = none) :
    parse_decimal (some s) = 0 := by
  simp [parse_decimal, pyDecimal, h3]

example : parse_decimal (some "123.45") = 2469 / 20 := by
  rw [parse_decimal_of_parse (by decide)
    (by decide : pyDecimalParse "123.45" = some ⟨false, 123, 45, 2, 0⟩)]
  norm_num [decValue]
example : parse_decimal (some "None") = 0 := by decide
example : parse_decimal (some "-1e2") = -100 := by
  rw [parse_decimal_of_parse (by decide)
    (by decide : pyDecimalParse "-1e2" = some ⟨true, 1, 0, 0, 2⟩)]
  norm_num [decValue]
example : parse_decimal (some "abc") = 0 := by decide
example : parse_decimal none = 0 := by decide
example : parse_decimal (some "1.") = 1 := by
  rw [parse_decimal_of_parse (by decide)
    (by decide : pyDecimalParse "1." = some ⟨false, 1, 0, 0, 0⟩)]
  norm_num [decValue]
example : parse_decimal (some ".5") = 1 / 2 := by
  rw [parse_decimal_of_parse (by decide)
    (by decide : pyDecimalParse ".5" = some ⟨false, 0, 5, 1, 0⟩)]
  norm_num [decValue]
example : parse_decimal (some ".") = 0 := by decide
example : parse_decimal (some "+2.5E-1") = 1 / 4 := by
  rw [parse_decimal_of_parse (by decide)
    (by decide : pyDecimalParse "+2.5E-1" = some ⟨false, 2, 5, 1, -1⟩)]
  norm_num [decValue]

/-- `MetricPoint` from `domain/entities.py`. -/
structure MetricPoint : Type where
  date : String
  value : ℚ
  deriving DecidableEq, Repr

/-- `data[-1].value` in `_calculate_cagr` (only reached when the guard
ensures at least two points, so the default is never used). -/
def cagrBegin (data : List MetricPoint) : ℚ :=
  (data.getLastD ⟨"", 0⟩).value

/-- `data[0].value` in `_calculate_cagr` (guarded likewise). -/
def cagrEnd (data : List MetricPoint) : ℚ :=
  (data.headD ⟨"", 0⟩).value

open Classical in
/-- Round half to even (banker's rounding), the mode Python `round` uses
on `Decimal` values. -/
noncomputable def roundHalfEven (y : ℝ) : ℤ :=
  let n := ⌊y⌋
  let f := y - (n : ℝ)
  if f < 1 / 2 then n
  else if 1 / 2 < f then n + 1
  else if Even n then n else n + 1

/-- `round(x, 2)`: round half to even at two decimal places. -/
noncomputable def round2 (x : ℝ) : ℝ :=
  ((roundHalfEven (100 * x) : ℤ) : ℝ) / 100

/-- `QuantitativeAnalysis._calculate_cagr` from `domain/entities.py`.
Python computes the fractional power in `Decimal` context arithmetic
(28 significant digits); the model uses the exact real power, the
idealisation the spec states for this precision boundary. -/
noncomputable def calculate_cagr (data : List MetricPoint) : Option ℝ :=
  if data.length < 2 then none
  else if cagrBegin data ≤ 0 ∨ cagrEnd data ≤ 0 then none
  else
    some (round2
      ((((cagrEnd data : ℝ) / (cagrBegin data : ℝ)) ^
          ((1 : ℝ) / ((data.length - 1 : ℕ) : ℝ)) - 1) * 100))

/-- `QuantitativeAnalysis` from `domain/entities.py`. -/
structure QuantitativeAnalysis : Type where
  metric_name : String
  yearly_data : List MetricPoint
  cagr : Option ℝ

/-- `QuantitativeAnalysis.create_analysis`. -/
noncomputable def create_analysis (name : String) (data : List MetricPoint) :
    QuantitativeAnalysis :=
  ⟨name, data, calculate_cagr data⟩

/-- Python `str.title()` on a character list: a cased character starts
upper-case after a non-cased character and lower-case otherwise (ASCII). -/
def pyTitleAux : List Char → Bool → List Char
  | [], _ => []
  | c :: cs, prevAlpha =>
      (if c.isAlpha then (if prevAlpha then c.toLower else c.toUpper) else c) ::
        pyTitleAux cs c.isAlpha

/-- Python `s.title()` (ASCII). -/
def pyTitle (s : String) : String :=
  String.mk (pyTitleAux s.data false)

/-- Python `s.lower()` (ASCII). -/
def pyLower (s : String) : String :=
  String.mk (s.data.map Char.toLower)

/-- `field_name.replace("_", " ").title()` from `_analyse_metric`: the
series' display name. -/
def displayName (field_name : String) : String :=
  pyTitle (String.mk (field_name.data.map (fun c => if c = '_' then ' ' else c)))

/-- `[f.name for f in fields(FinancialYear)]`: the declared field names of
the dataclass, in declaration order. -/
def allFieldNames : List String :=
  ["fiscal_date_ending", "revenue", "ebitda", "gross_profit",
   "operating_income", "net_income", "operating_cash_flow",
   "capital_expenditures", "shares_outstanding", "short_term_debt",
   "long_term_debt", "total_debt", "total_assets", "total_liabilities",
   "cash_and_equivalents"]

/-- `excluded_fields` from `evaluate_ticker`. -/
def excluded_fields : List String := ["fiscal_date_ending"]

/-- `metrics_to_analyse = [f for f in all_fields if f not in excluded_fields]`. -/
def metrics_to_analyse : List String :=
  allFieldNames.filter (fun f => !(excluded_fields.contains f))

/-- Python `getattr(fy, name)` restricted to the numeric metric fields;
`none` models `getattr` not producing a numeric metric value (an unknown
attribute raises, and the date field is not numeric).  Only tracked field
names reach this call in the source. -/
def getattrFY (fy : FinancialYear) : String → Option ℚ
  | "revenue" => some fy.revenue
  | "ebitda" => some fy.ebitda
  | "gross_profit" => some fy.gross_profit
  | "operating_income" => some fy.operating_income
  | "net_income" => some fy.net_income
  | "operating_cash_flow" => some fy.operating_cash_flow
  | "capital_expenditures" => some fy.capital_expenditures
  | "shares_outstanding" => some fy.shares_outstanding
  | "short_term_debt" => some fy.short_term_debt
  | "long_term_debt" => some fy.long_term_debt
  | "total_debt" => some fy.total_debt
  | "total_assets" => some fy.total_assets
  | "total_liabilities" => some fy.total_liabilities
  | "cash_and_equivalents" => some fy.cash_and_equivalents
  | _ => none

/-- Total accessor used to state what `getattrFY` returns on tracked
names. -/
def metricVal (fy : FinancialYear) (name : String) : ℚ :=
  (getattrFY fy name).getD 0

/-- Sequencing of optional results over a list (a Python list
comprehension whose body may raise). -/
def traverseOpt (f : α → Option β) : List α → Option (List β)
  | [] => some []
  | a :: as =>
      match f a, traverseOpt f as with
      | some b, some bs => some (b :: bs)
      | _, _ => none

/-- `_analyse_metric` from the quantitative use case and service (the two
copies are textually identical): take the first `years` records, read the
named field from each, and wrap into an analysis under the display name. -/
noncomputable def analyse_metric (financial_years : List FinancialYear)
    (field_name : String) (years : ℕ) : Option QuantitativeAnalysis :=
  (traverseOpt
      (fun fy => (getattrFY fy field_name).map
        (fun v => MetricPoint.mk fy.fiscal_date_ending v))
      (financial_years.take years)).map
    (fun points => create_analysis (displayName field_name) points)

/-- `TickerDTO` from the application DTOs. -/
structure TickerDTO : Type where
  symbol : String
  name : String
  sector : String
  industry : String

/-- Domain `Ticker` (same four string fields, defaults supplied by the
provider). -/
structure Ticker : Type where
  symbol : String
  name : String
  sector : String
  industry : String

/-- `MetricYearlyDTO` from the application DTOs. -/
structure MetricYearlyDTO : Type where
  date : String
  value : ℚ

/-- `MetricAnalysisDTO` from the application DTOs. -/
structure MetricAnalysisDTO : Type where
  metric_name : String
  yearly_data : List MetricYearlyDTO
  cagr : Option ℝ

/-- `QuantitativeValuationDTO`: ticker metadata plus the metric mapping.
The Python dict is modelled as an association list in insertion order
(the fourteen keys are pairwise distinct, so no overwriting occurs). -/
structure QuantitativeValuationDTO : Type where
  ticker : TickerDTO
  metrics : List (String × MetricAnalysisDTO)

/-- `QuantitativeValuationUseCase.evaluate_ticker`, with the two adapter
fetches abstracted into the `ticker` and `financial_years` arguments (the
adapter is an external collaborator per the spec): analyse every tracked
field and key each analysis by `analysis.metric_name.lower()`. -/
noncomputable def evaluate_ticker (ticker : Ticker)
    (financial_years : List FinancialYear) (years : ℕ) :
    Option QuantitativeValuationDTO :=
  (traverseOpt (fun m => analyse_metric financial_years m years)
      metrics_to_analyse).map
    (fun analyses =>
      { ticker := ⟨ticker.symbol, ticker.name, ticker.sector, ticker.industry⟩
        metrics := analyses.map (fun a =>
          (pyLower a.metric_name,
           { metric_name := a.metric_name
             yearly_data := a.yearly_data.map (fun p => MetricYearlyDTO.mk p.date p.value)
             cagr := a.cagr })) })

/-- The dates of a list of reconciled records, in order. -/
def yearDates (ys : List FinancialYear) : List String :=
  ys.map (fun y => y.fiscal_date_ending)

theorem parse_decimal_zero_string : parse_decimal (some "0") = 0 := by
  rw [parse_decimal_of_parse (by decide)
    (by decide : pyDecimalParse "0" = some ⟨false, 0, 0, 0, 0⟩)]
  norm_num [decValue]

/-- Reading a key without a default and with default `"0"` parse to the
same decimal: an absent key gives `0` either way. -/
theorem parse_get_eq_getD0 (r : Report) (k : String) :
    parse_decimal (reportGet r k) = parse_decimal (reportGetD r k "0") := by
  unfold reportGet reportGetD
  cases h : reportFind r k with
  | none => exact parse_decimal_zero_string.symm
  | some v => rfl

/-- Every reconciled record satisfies the derived-total-debt equation. -/
theorem mkYear_total_debt (d : String) (i b c : Report) :
    (mkYear d i b c).total_debt =
      (mkYear d i b c).short_term_debt + (mkYear d i b c).long_term_debt := by
  simp only [mkYear, parse_get_eq_getD0]

/-- A report with a non-falsy date contributes its date to `validDates`. -/
theorem validDates_cons_some {ir : Report} {d : String} (rest : List Report)
    (hd : reportGet ir "fiscalDateEnding" = some d) (hde : ¬ d = "") :
    validDates (ir :: rest) = d :: validDates rest := by
  simp [validDates, List.filterMap_cons, hd, hde]

/-- On success, the loop emits one record per non-skipped income report,
in order, each of the `mkYear` shape. -/
theorem reconcileGo_ok (bm cm : List (Option String × Report)) :
    ∀ (l : List Report) (ys : List FinancialYear),
      reconcileGo bm cm l = .ok ys →
      yearDates ys = validDates l ∧
      ∀ y ∈ ys, ∃ d i b c, y = mkYear d i b c := by
  intro l
  induction l with
  | nil =>
      intro ys h
      simp only [reconcileGo, Except.ok.injEq] at h
      subst h
      simp [yearDates, validDates]
  | cons ir rest ih =>
      intro ys h
      simp only [reconcileGo] at h
      cases hd : reportGet ir "fiscalDateEnding" with
      | none =>
          simp only [hd] at h
          have := ih ys h
          simpa [validDates, hd, List.filterMap_cons] using this
      | some d =>
          simp only [hd] at h
          by_cases hde : d = ""
          · rw [if_pos hde] at h
            have := ih ys h
            simpa [validDates, hd, hde, List.filterMap_cons] using this
          · rw [if_neg hde] at h
            cases hb : toTruthy (dictGet bm (some d)) with
            | none =>
                cases hc : toTruthy (dictGet cm (some d)) <;>
                  simp only [hb, hc] at h <;> exact Except.noConfusion h
            | some b =>
                cases hc : toTruthy (dictGet cm (some d)) with
                | none =>
                    simp only [hb, hc] at h
                    exact Except.noConfusion h
                | some c =>
                    simp only [hb, hc] at h
                    cases hrest : reconcileGo bm cm rest with
                    | error e =>
                        simp only [hrest] at h
                        exact Except.noConfusion h
                    | ok ys0 =>
                        simp only [hrest, Except.ok.injEq] at h
                        subst h
                        obtain ⟨hdates, hshape⟩ := ih ys0 hrest
                        constructor
                        · rw [validDates_cons_some rest hd hde]
                          simp only [yearDates, List.map_cons] at hdates ⊢
                          exact congrArg (fun t => d :: t) hdates
                        · intro y hy
                          rcases List.mem_cons.mp hy with hy | hy
                          · exact ⟨d, ir, b, c, hy⟩
                          · exact hshape y hy

/-- If some non-skipped income date lacks a truthy counterpart, the loop
fails, and the error is the exact message for such a date, with each
absent statement flagged (`isSome = false`). -/
theorem reconcileGo_error_of_bad (bm cm : List (Option String × Report)) :
    ∀ l : List Report,
      (∃ d ∈ validDates l, dateOk bm cm d = false) →
      ∃ d ∈ validDates l, dateOk bm cm d = false ∧
        reconcileGo bm cm l =
          .error (missingMsg d (toTruthy (dictGet bm (some d))).isSome
            (toTruthy (dictGet cm (some d))).isSome) := by
  intro l
  induction l with
  | nil => intro h; simp [validDates] at h
  | cons ir rest ih =>
      intro h
      cases hd : reportGet ir "fiscalDateEnding" with
      | none =>
          have hv : validDates (ir :: rest) = validDates rest := by
            simp [validDates, List.filterMap_cons, hd]
          rw [hv] at h
          obtain ⟨d, hmem, hbad, herr⟩ := ih h
          refine ⟨d, ?_, hbad, ?_⟩
          · rw [hv]; exact hmem
          · simp only [reconcileGo, hd]; exact herr
      | some d0 =>
          by_cases hde : d0 = ""
          · have hv : validDates (ir :: rest) = validDates rest := by
              simp [validDates, List.filterMap_cons, hd, hde]
            rw [hv] at h
            obtain ⟨d, hmem, hbad, herr⟩ := ih h
            refine ⟨d, ?_, hbad, ?_⟩
            · rw [hv]; exact hmem
            · simp only [reconcileGo, hd, hde, ite_true]; exact herr
          · rw [validDates_cons_some rest hd hde] at h
            cases hok : dateOk bm cm d0 with
            | false =>
                refine ⟨d0, ?_, hok, ?_⟩
                · rw [validDates_cons_some rest hd hde]; exact List.mem_cons_self d0 _
                · simp only [reconcileGo, hd, hde, ite_false, if_neg]
                  have := hok
                  unfold dateOk at this
                  cases hb : toTruthy (dictGet bm (some d0)) with
                  | none =>
                      cases hc : toTruthy (dictGet cm (some d0)) <;>
                        simp [hb, hc]
                  | some b =>
                      cases hc : toTruthy (dictGet cm (some d0)) with
                      | none => simp [hb, hc]
                      | some c => rw [hb, hc] at this; simp at this
            | true =>
                have hrest : ∃ d ∈ validDates rest, dateOk bm cm d = false := by
                  rcases h with ⟨d, hmem, hbad⟩
                  rcases List.mem_cons.mp hmem with rfl | hmem
                  · rw [hok] at hbad; exact absurd hbad (by simp)
                  · exact ⟨d, hmem, hbad⟩
                obtain ⟨d, hmem, hbad, herr⟩ := ih hrest
                refine ⟨d, ?_, hbad, ?_⟩
                · rw [validDates_cons_some rest hd hde]
                  exact List.mem_cons_of_mem _ hmem
                · have hok2 := hok
                  unfold dateOk at hok2
                  cases hb : toTruthy (dictGet bm (some d0)) with
                  | none => rw [hb] at hok2; simp at hok2
                  | some b =>
                      cases hc : toTruthy (dictGet cm (some d0)) with
                      | none => rw [hb, hc] at hok2; simp at hok2
                      | some c =>
                          simp only [reconcileGo, hd, hde, ite_false, if_neg, hb, hc]
                          rw [herr]

/-- C1: whenever some income report carries a non-empty fiscal date whose
balance or cash-flow lookup has no entry, the whole reconciliation fails:
the result is an error (no record list), its message names a date that is
missing a counterpart, and each absent statement is flagged `false`,
which `missingMsg` renders as `MISSING`. -/
theorem missing_counterpart_fails
    (income_list balance_list cash_list : List Report)
    (h : ∃ r ∈ income_list, ∃ d : String,
      reportGet r "fiscalDateEnding" = some d ∧ d ≠ "" ∧
      (dictGet (buildMap balance_list) (some d) = none ∨
       dictGet (buildMap cash_list) (some d) = none)) :
    ∃ d : String, d ∈ validDates income_list ∧
      (statementFound balance_list d = false ∨ statementFound cash_list d = false) ∧
      map_to_financial_years income_list balance_list cash_list =
        .error (missingMsg d (statementFound balance_list d)
          (statementFound cash_list d)) := by
  have hbad : ∃ d ∈ validDates income_list,
      dateOk (buildMap balance_list) (buildMap cash_list) d = false := by
    obtain ⟨r, hr, d, hget, hne, hmiss⟩ := h
    refine ⟨d, ?_, ?_⟩
    · unfold validDates
      refine List.mem_filterMap.mpr ⟨r, hr, ?_⟩
      rw [hget]
      simp [hne]
    · unfold dateOk
      rcases hmiss with hm | hm <;> rw [hm] <;> simp [toTruthy]
  obtain ⟨d, hmem, hbad2, herr⟩ :=
    reconcileGo_error_of_bad (buildMap balance_list) (buildMap cash_list)
      income_list hbad
  refine ⟨d, hmem, ?_, ?_⟩
  · unfold dateOk at hbad2
    unfold statementFound
    cases hA : (toTruthy (dictGet (buildMap balance_list) (some d))).isSome with
    | false => exact Or.inl rfl
    | true =>
        right
        rw [hA] at hbad2
        simpa using hbad2
  · unfold map_to_financial_years statementFound
    exact herr

def inc2024 : Report := [("fiscalDateEnding", some "2024-12-31"), ("totalRevenue", some "121")]

def inc2023 : Report := [("fiscalDateEnding", some "2023-12-31"), ("totalRevenue", some "110")]

def inc2022 : Report := [("fiscalDateEnding", some "2022-12-31"), ("totalRevenue", some "100")]

def bal2024 : Report := [("fiscalDateEnding", some "2024-12-31")]

def bal2022 : Report := [("fiscalDateEnding", some "2022-12-31")]

def cash2024 : Report := [("fiscalDateEnding", some "2024-12-31")]

def cash2023 : Report := [("fiscalDateEnding", some "2023-12-31")]

def cash2022 : Report := [("fiscalDateEnding", some "2022-12-31")]

/-- C1 witness: the spec's missing-single-year scenario — three fiscal
years, the `2023-12-31` balance sheet absent — fails with the exact
message naming the date and `Balance: MISSING`. -/
theorem missing_counterpart_fails_witness :
    map_to_financial_years [inc2024, inc2023, inc2022] [bal2024, bal2022]
        [cash2024, cash2023, cash2022] =
      .error "Missing data on date: 2023-12-31. Balance: MISSING, CashFlow: OK" := by
  obtain ⟨d, hmem, hflag, herr⟩ :=
    missing_counterpart_fails [inc2024, inc2023, inc2022] [bal2024, bal2022]
      [cash2024, cash2023, cash2022]
      ⟨inc2023, by decide, "2023-12-31", by decide, by decide, Or.inl (by decide)⟩
  rw [show validDates [inc2024, inc2023, inc2022] =
      ["2024-12-31", "2023-12-31", "2022-12-31"] from by decide] at hmem
  simp only [List.mem_cons, List.not_mem_nil, or_false] at hmem
  rcases hmem with rfl | rfl | rfl
  · rcases hflag with hf | hf <;> exact absurd hf (by decide)
  · rw [herr]
    simp only [Except.error.injEq]
    decide
  · rcases hflag with hf | hf <;> exact absurd hf (by decide)

/-- C4: every record produced by a successful reconciliation satisfies
`total_debt = short_term_debt + long_term_debt`; the total is computed by
summing the two parsed debt fields, so an absent key or the `"None"`
sentinel contributes `0`. -/
theorem total_debt_invariant (income_list balance_list cash_list : List Report)
    (ys : List FinancialYear)
    (h : map_to_financial_years income_list balance_list cash_list = .ok ys) :
    ∀ y ∈ ys, y.total_debt = y.short_term_debt + y.long_term_debt := by
  intro y hy
  obtain ⟨-, hshape⟩ := reconcileGo_ok _ _ income_list ys h
  obtain ⟨d, i, b, c, rfl⟩ := hshape y hy
  exact mkYear_total_debt d i b c

def c4bal : Report :=
  [("fiscalDateEnding", some "2022-12-31"), ("shortTermDebt", some "None"),
   ("totalDebt", some "999")]

/-- C4 witness: a balance sheet whose short-term debt is the `"None"`
sentinel, whose long-term debt key is absent, and whose raw `totalDebt`
field says `999`: the reconciled record still satisfies the invariant and
its total debt is `0` (each missing side contributed zero, the raw
combined field was ignored). -/
theorem total_debt_invariant_witness :
    map_to_financial_years [inc2022] [c4bal] [cash2022] =
      .ok [mkYear "2022-12-31" inc2022 c4bal cash2022] ∧
    (mkYear "2022-12-31" inc2022 c4bal cash2022).total_debt =
      (mkYear "2022-12-31" inc2022 c4bal cash2022).short_term_debt +
        (mkYear "2022-12-31" inc2022 c4bal cash2022).long_term_debt ∧
    (mkYear "2022-12-31" inc2022 c4bal cash2022).total_debt = 0 := by
  have hmap : map_to_financial_years [inc2022] [c4bal] [cash2022] =
      .ok [mkYear "2022-12-31" inc2022 c4bal cash2022] := rfl
  refine ⟨hmap,
    total_debt_invariant [inc2022] [c4bal] [cash2022] _ hmap _
      (List.mem_singleton.mpr rfl), ?_⟩
  show parse_decimal (reportGetD c4bal "shortTermDebt" "0") +
      parse_decimal (reportGetD c4bal "longTermDebt" "0") = 0
  rw [show reportGetD c4bal "shortTermDebt" "0" = some "None" from rfl,
    show reportGetD c4bal "longTermDebt" "0" = some "0" from rfl,
    parse_decimal_zero_string,
    show parse_decimal (some "None") = 0 from by decide]
  norm_num

def c7rep : Report := [("fiscalDateEnding", some "2022-12-31")]

/-- C7 counterexample: an income list naming the date `2022-12-31` twice
reconciles successfully into TWO records carrying that same date — not
exactly one record for the date, and no error is raised. -/
theorem duplicate_date_two_records :
    map_to_financial_years [c7rep, c7rep] [c7rep] [c7rep] =
      .ok [mkYear "2022-12-31" c7rep c7rep c7rep,
           mkYear "2022-12-31" c7rep c7rep c7rep] ∧
    (mkYear "2022-12-31" c7rep c7rep c7rep).fiscal_date_ending = "2022-12-31" :=
  ⟨rfl, rfl⟩

/-- C7 amended: reconciliation preserves the income list's order without
re-sorting — on success the dates of the output are exactly the non-empty
fiscal dates of the income list, occurrence for occurrence and in order
(so one record per income-list occurrence of a date, not per distinct
date), and each record satisfies the total-debt equation. -/
theorem reconciliation_order_and_records
    (income_list balance_list cash_list : List Report)
    (ys : List FinancialYear)
    (h : map_to_financial_years income_list balance_list cash_list = .ok ys) :
    yearDates ys = validDates income_list ∧
    ∀ y ∈ ys, y.total_debt = y.short_term_debt + y.long_term_debt := by
  obtain ⟨hdates, hshape⟩ := reconcileGo_ok _ _ income_list ys h
  refine ⟨hdates, fun y hy => ?_⟩
  obtain ⟨d, i, b, c, rfl⟩ := hshape y hy
  exact mkYear_total_debt d i b c

/-- C7 witness: a concrete two-year input reconciles in income order. -/
theorem reconciliation_order_and_records_witness :
    yearDates [mkYear "2024-12-31" inc2024 bal2024 cash2024,
               mkYear "2022-12-31" inc2022 bal2022 cash2022] =
      validDates [inc2024, inc2022] :=
  (reconciliation_order_and_records [inc2024, inc2022] [bal2024, bal2022]
    [cash2024, cash2022]
    [mkYear "2024-12-31" inc2024 bal2024 cash2024,
     mkYear "2022-12-31" inc2022 bal2022 cash2022] rfl).1

/-- C10: an income report whose fiscal date is absent, `null`, or the
empty string is silently skipped — the reconciliation result is the same
as if the report were not present at all. -/
theorem falsy_date_skipped (pre post balance_list cash_list : List Report)
    (r : Report)
    (h : reportGet r "fiscalDateEnding" = none ∨
      reportGet r "fiscalDateEnding" = some "") :
    map_to_financial_years (pre ++ r :: post) balance_list cash_list =
      map_to_financial_years (pre ++ post) balance_list cash_list := by
  unfold map_to_financial_years
  induction pre with
  | nil => rcases h with h | h <;> simp [reconcileGo, h]
  | cons ir pre ih =>
      simp only [List.cons_append, reconcileGo, List.append_eq]
      simp only [ih]

def c10null : Report := [("fiscalDateEnding", none), ("totalRevenue", some "5")]

/-- C10 witness: a report with a `null` fiscal date in front of a good
report changes nothing. -/
theorem falsy_date_skipped_witness :
    map_to_financial_years [c10null, inc2022] [bal2022] [cash2022] =
      map_to_financial_years [inc2022] [bal2022] [cash2022] :=
  falsy_date_skipped [] [inc2022] [bal2022] [cash2022] c10null (Or.inl rfl)

/-- C5: `parse_decimal` is total by construction (it is a Lean function
into `ℚ`, never raising): it returns exactly `0` for `null`, `""`,
`"None"` and any string the decimal grammar rejects, and the exact parsed
value for any string that parses. -/
theorem parse_decimal_total :
    parse_decimal none = 0 ∧
    parse_decimal (some "") = 0 ∧
    parse_decimal (some "None") = 0 ∧
    (∀ s : String, pyDecimal s = none → parse_decimal (some s) = 0) ∧
    (∀ (s : String) (q : ℚ), pyDecimal s = some q → parse_decimal (some s) = q) := by
  refine ⟨rfl, by decide, by decide, ?_, ?_⟩
  · intro s hs
    simp [parse_decimal, hs]
  · intro s q hq
    have h1 : s ≠ "None" := by
      rintro rfl
      rw [show pyDecimal "None" = none from by decide] at hq
      exact Option.noConfusion hq
    have h2 : s ≠ "" := by
      rintro rfl
      rw [show pyDecimal "" = none from by decide] at hq
      exact Option.noConfusion hq
    simp [parse_decimal, h1, h2, hq]

/-- C5 witness: non-numeric garbage parses to `0`; `"123.45"` parses to
its exact decimal value. -/
theorem parse_decimal_total_witness :
    parse_decimal (some "12a") = 0 ∧ parse_decimal (some "123.45") = 2469 / 20 := by
  constructor
  · exact parse_decimal_total.2.2.2.1 "12a" (by decide)
  · have h := parse_decimal_total.2.2.2.2 "123.45" (decValue ⟨false, 123, 45, 2, 0⟩)
      (by rw [pyDecimal, show pyDecimalParse "123.45" = some ⟨false, 123, 45, 2, 0⟩
          from by decide]; rfl)
    rw [h]
    norm_num [decValue]

/-- C2: the CAGR is absent exactly when fewer than 2 points exist or the
begin value (last point) is `≤ 0` or the end value (first point) is
`≤ 0`; being a total Lean function, `calculate_cagr` raises nothing. -/
theorem cagr_none_iff (data : List MetricPoint) :
    calculate_cagr data = none ↔
      (data.length < 2 ∨ cagrBegin data ≤ 0 ∨ cagrEnd data ≤ 0) := by
  unfold calculate_cagr
  split_ifs with h1 h2
  · simp [h1]
  · simp [h2]
  · simp [h1, h2]

/-- C3: with at least two points and positive begin/end values, the CAGR
is `((end/begin) ^ (1/periods) - 1) * 100` rounded half-even to two
decimal places, `periods = count - 1`. -/
theorem cagr_formula (data : List MetricPoint) (h2 : 2 ≤ data.length)
    (hb : 0 < cagrBegin data) (he : 0 < cagrEnd data) :
    calculate_cagr data =
      some (round2 ((((cagrEnd data : ℝ) / (cagrBegin data : ℝ)) ^
        ((1 : ℝ) / ((data.length - 1 : ℕ) : ℝ)) - 1) * 100)) := by
  unfold calculate_cagr
  rw [if_neg (by omega), if_neg (not_or.mpr ⟨not_le.mpr hb, not_le.mpr he⟩)]

theorem roundHalfEven_intCast (n : ℤ) : roundHalfEven (n : ℝ) = n := by
  norm_num [roundHalfEven, Int.floor_intCast]

theorem round2_ten : round2 10 = 10 := by
  unfold round2
  rw [show (100 : ℝ) * 10 = ((1000 : ℤ) : ℝ) by norm_num, roundHalfEven_intCast]
  norm_num

/-- The spec's worked example: the three-point series 121, 110, 100,
most recent first. -/
def ex3 : List MetricPoint :=
  [⟨"2024-12-31", 121⟩, ⟨"2023-12-31", 110⟩, ⟨"2022-12-31", 100⟩]

/-- C3 witness: on the series 121, 110, 100 the CAGR is exactly 10.00
(begin 100, end 121, periods 2, `1.21 ^ 0.5 = 1.1`). -/
theorem cagr_formula_witness : calculate_cagr ex3 = some 10 := by
  rw [cagr_formula ex3 (by decide) (by decide) (by decide)]
  congr 1
  rw [show cagrEnd ex3 = (121 : ℚ) from rfl, show cagrBegin ex3 = (100 : ℚ) from rfl,
    show ex3.length - 1 = 2 from rfl]
  have hpow : (((121 : ℚ) : ℝ) / ((100 : ℚ) : ℝ)) ^ ((1 : ℝ) / ((2 : ℕ) : ℝ)) =
      11 / 10 := by
    push_cast
    rw [← Real.sqrt_eq_rpow, show (121 / 100 : ℝ) = (11 / 10) ^ 2 by norm_num,
      Real.sqrt_sq (by norm_num : (0 : ℝ) ≤ 11 / 10)]
  rw [hpow]
  norm_num [round2_ten]

theorem metrics_to_analyse_eq :
    metrics_to_analyse =
      ["revenue", "ebitda", "gross_profit", "operating_income", "net_income",
       "operating_cash_flow", "capital_expenditures", "shares_outstanding",
       "short_term_debt", "long_term_debt", "total_debt", "total_assets",
       "total_liabilities", "cash_and_equivalents"] := by decide

theorem getattrFY_eq {name : String} (hname : name ∈ metrics_to_analyse)
    (fy : FinancialYear) : getattrFY fy name = some (metricVal fy name) := by
  rw [metrics_to_analyse_eq] at hname
  fin_cases hname <;> rfl

theorem traverseOpt_of_forall {α β : Type} (f : α → Option β) (g : α → β)
    (l : List α) (h : ∀ a ∈ l, f a = some (g a)) :
    traverseOpt f l = some (l.map g) := by
  induction l with
  | nil => rfl
  | cons a as ih =>
      simp only [traverseOpt]
      rw [h a (List.mem_cons_self a as),
        ih (fun x hx => h x (List.mem_cons_of_mem a hx))]
      rfl

/-- The points `_analyse_metric` extracts: the named field of each of the
first `window` records, in order. -/
def seriesPoints (fys : List FinancialYear) (name : String) (w : ℕ) :
    List MetricPoint :=
  (fys.take w).map (fun fy => ⟨fy.fiscal_date_ending, metricVal fy name⟩)

theorem analyse_metric_eq (fys : List FinancialYear) (name : String) (w : ℕ)
    (hname : name ∈ metrics_to_analyse) :
    analyse_metric fys name w =
      some (create_analysis (displayName name) (seriesPoints fys name w)) := by
  unfold analyse_metric
  rw [traverseOpt_of_forall _
    (fun fy => MetricPoint.mk fy.fiscal_date_ending (metricVal fy name)) _
    (fun fy _ => by rw [getattrFY_eq hname fy]; rfl)]
  rfl

/-- C6: for a tracked field and positive window, the series is exactly
the named field of the first `min window length` records, in order —
never more than `window` points, never more than the available records,
never an error on short history. -/
theorem build_series_window (fys : List FinancialYear) (name : String) (w : ℕ)
    (hw : 0 < w) (hname : name ∈ metrics_to_analyse) :
    analyse_metric fys name w =
      some (create_analysis (displayName name) (seriesPoints fys name w)) ∧
    (seriesPoints fys name w).length = min w fys.length ∧
    (seriesPoints fys name w).length ≤ w ∧
    (seriesPoints fys name w).length ≤ fys.length := by
  have hlen : (seriesPoints fys name w).length = min w fys.length := by
    simp [seriesPoints]
  exact ⟨analyse_metric_eq fys name w hname, hlen,
    by rw [hlen]; exact Nat.min_le_left _ _,
    by rw [hlen]; exact Nat.min_le_right _ _⟩

def fy2024 : FinancialYear := ⟨"2024-12-31", 121, 0, 0, 0, 0, 0, 0, 0, 0, 0, 0, 0, 0, 0⟩

def fy2023 : FinancialYear := ⟨"2023-12-31", 110, 0, 0, 0, 0, 0, 0, 0, 0, 0, 0, 0, 0, 0⟩

def fy2022 : FinancialYear := ⟨"2022-12-31", 100, 0, 0, 0, 0, 0, 0, 0, 0, 0, 0, 0, 0, 0⟩

/-- C6 witness: window 10 over 3 records yields exactly 3 points. -/
theorem build_series_window_witness :
    analyse_metric [fy2024, fy2023, fy2022] "revenue" 10 =
      some (create_analysis (displayName "revenue")
        (seriesPoints [fy2024, fy2023, fy2022] "revenue" 10)) ∧
    (seriesPoints [fy2024, fy2023, fy2022] "revenue" 10).length = 3 := by
  obtain ⟨h1, h2, -, -⟩ :=
    build_series_window [fy2024, fy2023, fy2022] "revenue" 10 (by decide) (by decide)
  exact ⟨h1, h2.trans (by decide)⟩

/-- C9: every tracked field's series carries the display name obtained by
replacing underscores with spaces and capitalizing each word — with no
special-casing of acronyms, so `operating_cash_flow` becomes
`Operating Cash Flow` and `ebitda` becomes `Ebitda`. -/
theorem display_name_mapping :
    (∀ (fys : List FinancialYear) (w : ℕ) (name : String),
      name ∈ metrics_to_analyse →
      (analyse_metric fys name w).map QuantitativeAnalysis.metric_name =
        some (displayName name)) ∧
    displayName "operating_cash_flow" = "Operating Cash Flow" ∧
    displayName "ebitda" = "Ebitda" := by
  refine ⟨?_, by decide, by decide⟩
  intro fys w name hname
  rw [analyse_metric_eq fys name w hname]
  rfl

/-- C9 witness: the series built for `operating_cash_flow` is named
`Operating Cash Flow`. -/
theorem display_name_mapping_witness :
    (analyse_metric [] "operating_cash_flow" 5).map
        QuantitativeAnalysis.metric_name = some "Operating Cash Flow" := by
  rw [display_name_mapping.1 [] 5 "operating_cash_flow" (by decide)]
  decide

/-- The metric DTO built in the orchestrator's loop for one analysis. -/
def mkMetricDTO (a : QuantitativeAnalysis) : MetricAnalysisDTO :=
  ⟨a.metric_name, a.yearly_data.map (fun p => ⟨p.date, p.value⟩), a.cagr⟩

/-- The keys of the orchestrator's output mapping, in insertion order. -/
def dtoKeys (d : QuantitativeValuationDTO) : List String :=
  d.metrics.map Prod.fst

/-- The key the orchestrator uses for each tracked field:
`analysis.metric_name.lower()`, i.e. the lower-cased display name. -/
def metricKeys : List String :=
  metrics_to_analyse.map (fun n => pyLower (displayName n))

theorem evaluate_ticker_eq (t : Ticker) (fys : List FinancialYear) (w : ℕ) :
    evaluate_ticker t fys w =
      some ⟨⟨t.symbol, t.name, t.sector, t.industry⟩,
        metrics_to_analyse.map (fun m =>
          (pyLower (displayName m),
           mkMetricDTO (create_analysis (displayName m) (seriesPoints fys m w))))⟩ := by
  unfold evaluate_ticker
  rw [traverseOpt_of_forall _
    (fun m => create_analysis (displayName m) (seriesPoints fys m w)) _
    (fun m hm => analyse_metric_eq fys m w hm)]
  simp only [Option.map_some', List.map_map]
  rfl

theorem evaluate_ticker_keys (t : Ticker) (fys : List FinancialYear) (w : ℕ) :
    (evaluate_ticker t fys w).map dtoKeys = some metricKeys := by
  rw [evaluate_ticker_eq]
  simp only [Option.map_some', dtoKeys, List.map_map, metricKeys]
  rfl

/-- The fourteen keys actually used by the orchestrator's mapping. -/
def c8keys : List String :=
  ["revenue", "ebitda", "gross profit", "operating income", "net income",
   "operating cash flow", "capital expenditures", "shares outstanding",
   "short term debt", "long term debt", "total debt", "total assets",
   "total liabilities", "cash and equivalents"]

/-- C8 counterexample: at a concrete input the output mapping's keys are
the lower-cased display names — `"operating cash flow"` with spaces — and
the raw field name `"operating_cash_flow"` is NOT among the keys, so the
analyses are not stored under the raw names. -/
theorem raw_name_keys_false :
    (evaluate_ticker ⟨"TEST", "", "Unknown", "Unknown"⟩ [] 5).map dtoKeys =
      some c8keys ∧
    "operating_cash_flow" ∉ c8keys ∧
    "operating cash flow" ∈ c8keys := by
  refine ⟨?_, by decide, by decide⟩
  rw [evaluate_ticker_keys]
  decide

/-- C8 amended: for every tracked field the orchestrator builds the
series and CAGR and stores the analysis under the lower-cased DISPLAY
name (the raw name with underscores replaced by spaces, lower-cased),
covering all fourteen tracked fields; the key equals the lower-cased raw
name only for single-word fields. -/
theorem metrics_mapping_keys (t : Ticker) (fys : List FinancialYear) (w : ℕ) :
    evaluate_ticker t fys w =
      some ⟨⟨t.symbol, t.name, t.sector, t.industry⟩,
        metrics_to_analyse.map (fun m =>
          (pyLower (displayName m),
           mkMetricDTO (create_analysis (displayName m) (seriesPoints fys m w))))⟩ ∧
    (evaluate_ticker t fys w).map dtoKeys = some metricKeys ∧
    metricKeys = c8keys ∧
    metricKeys.length = 14 :=
  ⟨evaluate_ticker_eq t fys w, evaluate_ticker_keys t fys w, by decide, by decide⟩
